import Mathlib

/-!
Verification development for the document-redactor service.

The definitions below are a shallow embedding of the repository's Python
source.  External collaborators (the OCR engine, the GLiNER entity model,
the PDF decoder, the JPEG encoder and the SQLAlchemy session) are
represented as explicit function parameters or as explicit state, and the
persisted database rows as plain structures.  Machine images are modelled
as total pixel maps; image bytes that only flow through the code unchanged
are modelled as natural numbers.
-/

/-! ## Pixel images (PIL Image objects, decoded) -/

/-- Pixel value: one RGB triple, as used after convert to RGB mode. -/
abbrev Pix := Int × Int × Int

/-- Decoded raster image: dimensions plus a total pixel map. -/
structure Img where
  width : Int
  height : Int
  pix : Int → Int → Pix

/-- Solid black fill colour used by ImageDraw rectangle fill. -/
def blackPix : Pix := (0, 0, 0)

/-- Axis-aligned box as produced by pytesseract: left, top, width, height. -/
structure Box where
  x : Int
  y : Int
  w : Int
  h : Int
deriving DecidableEq

/-- Membership of a pixel in the rectangle drawn for a box: PIL's
draw.rectangle with corners x, y and x + w, y + h fills both corners
inclusively. -/
def inRect (b : Box) (i j : Int) : Bool :=
  decide (b.x ≤ i) && decide (i ≤ b.x + b.w) && decide (b.y ≤ j) && decide (j ≤ b.y + b.h)

/-- One draw.rectangle call with fill black on a copy of the image. -/
def fillRect (img : Img) (b : Box) : Img :=
  ⟨img.width, img.height, fun i j => if inRect b i j then blackPix else img.pix i j⟩

/-- RedactionService.redact_image: draw a solid black rectangle for every
box in the list, in order.  The source converts to RGB first (identity on
an already-RGB raster) and has no other drawing mode. -/
def redact_image (img : Img) (boxes : List Box) : Img :=
  boxes.foldl fillRect img

/-- Plain white test image used for concrete evaluations. -/
def whiteImg : Img := ⟨100, 100, fun _ _ => (255, 255, 255)⟩

/-! ## Dynamic box values reaching the drawing loop

The Python loop in redact_image is written
for x, y, w, h in boxes: draw.rectangle ...
The annotation says each entry is a 4-tuple of ints, but Python does not
enforce it.  PyBox models the dynamic values a caller could pass:
quad is a well-formed (x, y, w, h) tuple; poly is a list of points,
covering both the four-point-polygon form and wrong-arity entries. -/

inductive PyBox where
  | quad (x y w h : Int)
  | poly (pts : List (Int × Int))

/-- One iteration of the drawing loop under Python tuple-unpacking
semantics.  A quad unpacks into four ints and draws.  A list of exactly
four points unpacks (x becomes a point, not a number), and the subsequent
draw.rectangle call on point-valued coordinates raises a TypeError.  A
list of any other length fails the unpacking itself with a ValueError.
Either exception propagates out of redact_image. -/
def drawPyBox (img : Img) : PyBox → Except String Img
  | .quad x y w h => .ok (fillRect img ⟨x, y, w, h⟩)
  | .poly pts =>
    if pts.length = 4 then
      .error "TypeError: rectangle coordinates must be numbers"
    else
      .error "ValueError: cannot unpack box entry into x, y, w, h"

/-- RedactionService.redact_image under dynamic box values: the loop stops
at the first entry whose unpacking or drawing raises, and the exception
propagates to the caller. -/
def redact_image_py (img : Img) : List PyBox → Except String Img
  | [] => .ok img
  | b :: rest =>
    match drawPyBox img b with
    | .ok img2 => redact_image_py img2 rest
    | .error e => .error e

/-- Whether an Except value is an error. -/
def isErrE : Except ε α → Bool
  | .error _ => true
  | .ok _ => false

/-! ## OCR words and RedactionService.detect_text_and_boxes -/

/-- Confidence value as delivered by pytesseract image_to_data: the source
handles str, int and any other type. -/
inductive ConfVal where
  | str (s : String)
  | int (n : Int)
  | other
deriving DecidableEq

/-- Python str.isdigit for the ASCII digits the OCR engine emits: true on
a non-empty all-digit string. -/
def pyIsDigit (s : String) : Bool :=
  !(s == "") && s.data.all Char.isDigit

/-- Numeric value of an all-digits string. -/
def digitsVal (s : String) : Nat :=
  s.data.foldl (fun a c => a * 10 + (c.toNat - 48)) 0

/-- Confidence coercion from detect_text_and_boxes: a digit string parses
to its value, any other string becomes -1, an int passes through, any
other type becomes -1. -/
def coerceConf : ConfVal → Int
  | .str s => if pyIsDigit s then (digitsVal s : Int) else -1
  | .int n => n
  | .other => -1

/-- One row of the zipped pytesseract image_to_data output. -/
structure OcrWord where
  block_num : Nat
  par_num : Nat
  line_num : Nat
  text : String
  conf : ConfVal
  left : Int
  top : Int
  width : Int
  height : Int
deriving DecidableEq

/-- The box recorded for a word: exactly its reported left, top, width,
height, with no padding applied. -/
def wordBox (w : OcrWord) : Box := ⟨w.left, w.top, w.width, w.height⟩

/-- Python str.strip with no argument: drop whitespace from both ends. -/
def pyStrip (s : String) : String :=
  ⟨(((s.data.dropWhile Char.isWhitespace).reverse).dropWhile Char.isWhitespace).reverse⟩

/-- The filter in detect_text_and_boxes: continue (drop the word) when the
stripped text is empty or the coerced confidence is below the threshold;
keep it otherwise. -/
def keptWord (t : Int) (w : OcrWord) : Bool :=
  decide (pyStrip w.text ≠ "") && decide (t ≤ coerceConf w.conf)

/-- Grouping key: the (block_num, par_num, line_num) triple. -/
abbrev GKey := Nat × Nat × Nat

/-- One defaultdict entry: key, accumulated words, accumulated boxes. -/
abbrev OcrGroup := GKey × List String × List Box

/-- Append a kept word and its box to its line's defaultdict entry,
preserving first-occurrence key order as a Python dict does. -/
def addWord (k : GKey) (word : String) (b : Box) : List OcrGroup → List OcrGroup
  | [] => [(k, [word], [b])]
  | (k2, ws, bs) :: rest =>
    if k2 = k then (k2, ws ++ [word], bs ++ [b]) :: rest
    else (k2, ws, bs) :: addWord k word b rest

/-- The word loop of detect_text_and_boxes: fold the filtered, stripped
words into line groups. -/
def buildGroups (t : Int) : List OcrWord → List OcrGroup → List OcrGroup
  | [], acc => acc
  | w :: ws, acc =>
    if keptWord t w then
      buildGroups t ws (addWord (w.block_num, w.par_num, w.line_num) (pyStrip w.text) (wordBox w) acc)
    else
      buildGroups t ws acc

/-- One grouped text line: space-joined text plus one box per word. -/
structure LineGroup where
  text : String
  boxes : List Box
deriving DecidableEq

/-- RedactionService.detect_text_and_boxes, with the pytesseract output
for the image supplied as the list of OCR word rows: filter by stripped
text and confidence threshold, group by (block, par, line), join each
group's words with single spaces.  The decoded image itself passes
through unchanged. -/
def detect_text_and_boxes (t : Int) (ws : List OcrWord) : List LineGroup :=
  (buildGroups t ws []).map (fun g => LineGroup.mk (String.intercalate " " g.2.1) g.2.2)

/-! ## GLiNER classification and RedactionService.classify_pii -/

/-- One entity returned by gliner.predict_entities; the source consults
only its label field. -/
structure Entity where
  label : String
deriving DecidableEq

/-- The PII label set handed to predict_entities and checked against the
returned labels. -/
def piiLabels : List String := ["PERSON", "EMAIL", "PHONE", "ADDRESS"]

/-- The per-fragment body of classify_pii: call the classifier on the
fragment's text; on success, contribute all of the fragment's boxes when
any returned label is in the PII set and nothing otherwise; on an
exception, log and contribute nothing. -/
def contribBoxes (cl : String → Except String (List Entity)) (g : LineGroup) : List Box :=
  match cl g.text with
  | .ok ents => if ents.any (fun e => piiLabels.contains e.label) then g.boxes else []
  | .error _ => []

/-- RedactionService.classify_pii: start from an empty list and extend it
with each fragment's contribution in order. -/
def classify_pii (cl : String → Except String (List Entity)) (lines : List LineGroup) : List Box :=
  lines.foldl (fun acc g => acc ++ contribBoxes cl g) []

/-! ## RedactionService and process_redaction -/

/-- The constructor state of RedactionService: the stored confidence
threshold and the stored box_padding.  The GLiNER model is passed to the
functions below as the classifier parameter. -/
structure RedactionService where
  confidence_threshold : Int
  box_padding : Int
deriving DecidableEq

/-- Result of process_redaction: the PII boxes and the redacted image.
The PNG save is lossless, so the encoded artifact is modelled by the
raster it encodes. -/
structure ProcResult where
  boxes : List Box
  redacted_image : Img

/-- RedactionService.process_redaction on a decoded image and its OCR
rows: detect and group text, classify fragments, black out the PII boxes
on a copy, and return the boxes with the redacted image. -/
def process_redaction (s : RedactionService) (cl : String → Except String (List Entity))
    (img : Img) (ocr : List OcrWord) : ProcResult :=
  ⟨classify_pii cl (detect_text_and_boxes s.confidence_threshold ocr),
   redact_image img (classify_pii cl (detect_text_and_boxes s.confidence_threshold ocr))⟩

/-! ## Helper lemmas on list concatenation maps -/

/-- Concatenation of f over a list, the shape classify_pii builds. -/
def concatMapB (f : α → List β) : List α → List β
  | [] => []
  | a :: l => f a ++ concatMapB f l

/-! ## Provenance of boxes through grouping and classification -/

/-- All boxes stored across a list of groups. -/
def gBoxes (gs : List OcrGroup) : List Box :=
  concatMapB (fun g => g.2.2) gs

/-! ## Concrete values used in closed evaluations -/

/-- A word kept at threshold 60: confidence exactly 60, non-empty text. -/
def wKept : OcrWord := ⟨1, 1, 1, "John", .int 60, 1, 2, 3, 4⟩

/-- A word discarded at threshold 60: confidence 59. -/
def wLow : OcrWord := ⟨1, 1, 1, "Jane", .int 59, 5, 6, 7, 8⟩

/-- A word discarded for empty text after stripping. -/
def wEmpty : OcrWord := ⟨1, 1, 1, "  ", .int 95, 9, 9, 9, 9⟩

/-- A classifier that labels every text as an email entity. -/
def clEmail : String → Except String (List Entity) := fun _ => .ok [⟨"EMAIL"⟩]

/-- A classifier that finds no entities. -/
def clNone : String → Except String (List Entity) := fun _ => .ok []

/-- A classifier finding an email in one specific text and a non-PII
entity otherwise. -/
def clWit : String → Except String (List Entity) :=
  fun s => if s == "a@b.c" then .ok [⟨"EMAIL"⟩] else .ok [⟨"OTHER"⟩]

/-- A classifier that raises on one specific text. -/
def clBoom : String → Except String (List Entity) :=
  fun s => if s == "boom" then .error "model failure" else .ok [⟨"EMAIL"⟩]

/-- Fragment whose text the witness classifier labels as PII. -/
def gMail : LineGroup := ⟨"a@b.c", [⟨1, 1, 2, 2⟩]⟩

/-- Fragment whose text the witness classifier labels as non-PII. -/
def gPlain : LineGroup := ⟨"hi", [⟨5, 5, 1, 1⟩]⟩

/-- Fragment on which the failing classifier raises. -/
def gBoom : LineGroup := ⟨"boom", [⟨3, 3, 3, 3⟩]⟩

/-! ## Ingestion: process_pdf_in_background

The background task owns its own session.  Durable state is the upload's
status plus the committed Page rows of this upload; the function returns
the final durable state together with the list of committed snapshots,
one per db.commit() in the source.  The PyMuPDF decomposition is supplied
as an already-computed Except value (it happens before any Page is
added), the JPEG encoding as a fallible function, and the success of the
bulk-insert commit as a flag; on any exception the source rolls the
session back — dropping every pending Page insert — and commits FAILED. -/

/-- Encoded image bytes, abstracted. -/
abbrev Bytes := Nat

/-- One decoded page raster, abstracted. -/
abbrev Raster := Nat

/-- Status enum of the uploads table. -/
inductive UploadStatus where
  | PENDING
  | PROCESSING
  | DONE
  | FAILED
deriving DecidableEq

/-- One Page row of this upload: 1-based page_number and JPEG bytes. -/
structure PageRow where
  page_number : Nat
  img_bytes : Bytes
deriving DecidableEq

/-- Durable state for one upload: its status and its committed Page rows. -/
structure DbState where
  status : UploadStatus
  pages : List PageRow
deriving DecidableEq

/-- Fresh upload as created by the request handler: PENDING, no pages. -/
def dbInit : DbState := ⟨.PENDING, []⟩

/-- Consecutive naturals starting at s, the expected page numbering. -/
def natsFrom (s : Nat) : Nat → List Nat
  | 0 => []
  | n + 1 => s :: natsFrom (s + 1) n

/-- The page loop: encode each raster to JPEG and build a Page record
with page_number equal to its 1-based position; an encoding exception
aborts the loop. -/
def buildPages (encode : Raster → Except String Bytes) (s : Nat) :
    List Raster → Except String (List PageRow)
  | [] => .ok []
  | r :: rs =>
    match encode r with
    | .error e => .error e
    | .ok b =>
      match buildPages encode (s + 1) rs with
      | .error e => .error e
      | .ok ps => .ok (⟨s, b⟩ :: ps)

/-- A JPEG encoder that always succeeds, for concrete evaluations. -/
def encId : Raster → Except String Bytes := fun r => .ok r

/-- process_pdf_in_background: commit PROCESSING, decompose and encode,
bulk-add all Page rows and commit, then commit DONE; on any exception in
those steps, roll back the pending inserts and commit FAILED. -/
def process_pdf_in_background (encode : Raster → Except String Bytes)
    (decoded : Except String (List Raster)) (persistOk : Bool) (db0 : DbState) :
    DbState × List DbState :=
  let s1 : DbState := ⟨.PROCESSING, db0.pages⟩
  match decoded with
  | .error _ => (⟨.FAILED, s1.pages⟩, [s1, ⟨.FAILED, s1.pages⟩])
  | .ok rasters =>
    match buildPages encode 1 rasters with
    | .error _ => (⟨.FAILED, s1.pages⟩, [s1, ⟨.FAILED, s1.pages⟩])
    | .ok ps =>
      if persistOk then
        (⟨.DONE, s1.pages ++ ps⟩, [s1, ⟨.PROCESSING, s1.pages ++ ps⟩, ⟨.DONE, s1.pages ++ ps⟩])
      else
        (⟨.FAILED, s1.pages⟩, [s1, ⟨.FAILED, s1.pages⟩])

/-! ## Batch redaction runner: redact_upload -/

/-- One Page row as seen by the runner. -/
structure PgRow where
  id : Nat
  upload_id : Nat
  page_number : Nat
  img_bytes : Bytes
deriving DecidableEq

/-- One RedactedPage row: autoincrement primary key id and a foreign key
page_id that is not unique in the schema. -/
structure RpRow where
  id : Nat
  page_id : Nat
  redacted_bytes : Bytes
deriving DecidableEq

/-- Durable database state seen by the runner, plus the id the next
inserted RedactedPage row will get. -/
structure RunDb where
  uploads : List Nat
  pages : List PgRow
  redacted : List RpRow
  nextRpId : Nat
deriving DecidableEq

/-- Result dict of RedactionService.process_redaction at the bytes level:
the PII boxes and the redacted PNG bytes. -/
structure RedResult where
  boxes : List Box
  redacted_image : Bytes
deriving DecidableEq

/-- One per-page entry of the runner's summary. -/
structure PageResult where
  page_id : Nat
  page_number : Nat
  boxes_found : Nat
deriving DecidableEq

/-- The summary returned by redact_upload. -/
structure Summary where
  upload_id : Nat
  total_pages : Nat
  total_boxes_redacted : Nat
  pages : List PageResult
deriving DecidableEq

/-- db.merge on a RedactedPage built with page_id and redacted_bytes
only: SQLAlchemy merge keys on the primary key id, which is unset, so no
existing row can match and a new row is inserted with the next id. -/
def mergeNewRp (db : RunDb) (page_id : Nat) (bytes : Bytes) : RunDb :=
  { db with
    redacted := db.redacted ++ [⟨db.nextRpId, page_id, bytes⟩],
    nextRpId := db.nextRpId + 1 }

/-- Stable insertion into a list sorted by page_number. -/
def insertPage (p : PgRow) : List PgRow → List PgRow
  | [] => [p]
  | q :: qs => if p.page_number ≤ q.page_number then p :: q :: qs else q :: insertPage p qs

/-- Stable sort by page_number, the order_by of the pages query. -/
def sortPages : List PgRow → List PgRow
  | [] => []
  | p :: ps => insertPage p (sortPages ps)

/-- The pages query of redact_upload: the upload's pages in ascending
page_number order. -/
def pagesOf (db : RunDb) (uid : Nat) : List PgRow :=
  sortPages (db.pages.filter (fun p => p.upload_id == uid))

/-- The page loop of redact_upload: per page, call the redaction engine
on the stored image bytes, merge a RedactedPage into the session, and
accumulate the per-page results and the box total; an engine exception
aborts the loop and propagates. -/
def runPages (engine : Bytes → Except String RedResult) :
    RunDb → List PgRow → Except String (RunDb × List PageResult × Nat)
  | db, [] => .ok (db, [], 0)
  | db, p :: ps =>
    match engine p.img_bytes with
    | .error e => .error e
    | .ok r =>
      match runPages engine (mergeNewRp db p.id r.redacted_image) ps with
      | .error e => .error e
      | .ok (dbf, res, tot) =>
        .ok (dbf, ⟨p.id, p.page_number, r.boxes.length⟩ :: res, r.boxes.length + tot)

/-- redact_upload: 404 when the upload is missing or has no pages; run
the page loop on the session; the one db.commit() sits after the loop, so
an exception leaves the durable state untouched (the session is closed
without commit) while success publishes all merged rows at once.  The
first component is the durable state after the request, the second the
response. -/
def redact_upload_tx (engine : Bytes → Except String RedResult) (db : RunDb) (uid : Nat) :
    RunDb × Except String Summary :=
  if db.uploads.contains uid then
    if (pagesOf db uid).isEmpty then
      (db, .error "No pages found for this upload")
    else
      match runPages engine db (pagesOf db uid) with
      | .error e => (db, .error e)
      | .ok (dbf, res, tot) => (dbf, .ok ⟨uid, (pagesOf db uid).length, tot, res⟩)
  else
    (db, .error "Upload not found")

/-- Upload 7 with a single page, for the duplicate-row evaluation. -/
def dbC : RunDb := ⟨[7], [⟨1, 7, 1, 100⟩], [], 0⟩

/-- A deterministic engine finding no PII. -/
def engineC : Bytes → Except String RedResult := fun b => .ok ⟨[], b⟩

/-- Upload 3 with a single page, for the abort and success witnesses. -/
def dbW : RunDb := ⟨[3], [⟨1, 3, 1, 50⟩], [], 0⟩

/-- An engine that raises on every page. -/
def engineFail : Bytes → Except String RedResult := fun _ => .error "OCR processing failed"

/-- A deterministic engine finding one PII box per page. -/
def engineOkW : Bytes → Except String RedResult := fun b => .ok ⟨[⟨0, 0, 1, 1⟩], b⟩

/-! ## Helper theorems on concatenation maps and box provenance -/

theorem mem_concatMapB {f : α → List β} {x : β} :
    ∀ {l : List α}, x ∈ concatMapB f l ↔ ∃ a, a ∈ l ∧ x ∈ f a := by
  intro l
  induction l with
  | nil => simp [concatMapB]
  | cons a l ih =>
    simp only [concatMapB, List.mem_append, ih, List.mem_cons]
    constructor
    · rintro (hx | ⟨b, hb, hx⟩)
      · exact ⟨a, Or.inl rfl, hx⟩
      · exact ⟨b, Or.inr hb, hx⟩
    · rintro ⟨b, hb | hb, hx⟩
      · exact Or.inl (hb ▸ hx)
      · exact Or.inr ⟨b, hb, hx⟩

theorem concatMapB_append (f : α → List β) :
    ∀ (l1 l2 : List α), concatMapB f (l1 ++ l2) = concatMapB f l1 ++ concatMapB f l2 := by
  intro l1 l2
  induction l1 with
  | nil => simp [concatMapB]
  | cons a l ih => simp [concatMapB, ih]

theorem foldl_append_concatMap (f : α → List β) :
    ∀ (l : List α) (init : List β),
      l.foldl (fun acc a => acc ++ f a) init = init ++ concatMapB f l := by
  intro l
  induction l with
  | nil => intro init; simp [concatMapB]
  | cons a l ih => intro init; simp [concatMapB, ih, List.append_assoc]

theorem classify_pii_eq_concatMap (cl : String → Except String (List Entity))
    (lines : List LineGroup) :
    classify_pii cl lines = concatMapB (contribBoxes cl) lines := by
  simpa [classify_pii] using foldl_append_concatMap (contribBoxes cl) lines []

theorem mem_addWord_boxes (k : GKey) (word : String) (b : Box) :
    ∀ (gs : List OcrGroup) (x : Box),
      x ∈ gBoxes (addWord k word b gs) → x ∈ gBoxes gs ∨ x = b := by
  intro gs
  induction gs with
  | nil =>
    intro x hx
    simp [gBoxes, addWord, concatMapB] at hx
    exact Or.inr hx
  | cons g rest ih =>
    rcases g with ⟨k2, ws, bs⟩
    intro x hx
    by_cases hk : k2 = k
    · simp only [gBoxes, addWord, hk, if_pos rfl, concatMapB, List.mem_append] at hx
      rcases hx with (hx | hx) | hx
      · exact Or.inl (by simp [gBoxes, concatMapB, List.mem_append]; exact Or.inl hx)
      · simp at hx
        exact Or.inr hx
      · exact Or.inl (by simp [gBoxes, concatMapB, List.mem_append]; exact Or.inr hx)
    · simp only [gBoxes, addWord, if_neg hk, concatMapB, List.mem_append] at hx
      rcases hx with hx | hx
      · exact Or.inl (by simp [gBoxes, concatMapB, List.mem_append]; exact Or.inl hx)
      · rcases ih x hx with h | h
        · exact Or.inl (by simp [gBoxes, concatMapB, List.mem_append]; exact Or.inr h)
        · exact Or.inr h

theorem mem_buildGroups_boxes (t : Int) :
    ∀ (ws : List OcrWord) (acc : List OcrGroup) (x : Box),
      x ∈ gBoxes (buildGroups t ws acc) →
      x ∈ gBoxes acc ∨ ∃ w, w ∈ ws ∧ keptWord t w = true ∧ x = wordBox w := by
  intro ws
  induction ws with
  | nil =>
    intro acc x hx
    exact Or.inl hx
  | cons w ws ih =>
    intro acc x hx
    by_cases hw : keptWord t w
    · simp only [buildGroups, if_pos hw] at hx
      rcases ih _ x hx with h | ⟨w2, hw2, hkept, hbox⟩
      · rcases mem_addWord_boxes _ _ _ acc x h with h2 | h2
        · exact Or.inl h2
        · exact Or.inr ⟨w, List.mem_cons_self w ws, hw, h2⟩
      · exact Or.inr ⟨w2, List.mem_cons_of_mem w hw2, hkept, hbox⟩
    · simp only [buildGroups, if_neg hw] at hx
      rcases ih _ x hx with h | ⟨w2, hw2, hkept, hbox⟩
      · exact Or.inl h
      · exact Or.inr ⟨w2, List.mem_cons_of_mem w hw2, hkept, hbox⟩

theorem boxes_detect_eq (t : Int) (ws : List OcrWord) :
    concatMapB LineGroup.boxes (detect_text_and_boxes t ws) = gBoxes (buildGroups t ws []) := by
  unfold detect_text_and_boxes gBoxes
  generalize buildGroups t ws [] = gs
  induction gs with
  | nil => simp [concatMapB]
  | cons g rest ih => simp [concatMapB, ih]

theorem contrib_sub_boxes (cl : String → Except String (List Entity)) (g : LineGroup)
    (b : Box) (hb : b ∈ contribBoxes cl g) : b ∈ g.boxes := by
  unfold contribBoxes at hb
  split at hb
  · split at hb
    · exact hb
    · cases hb
  · cases hb

/-- Every box in the output of the classify step on the detected lines is
the exact word box of some kept OCR word. -/
theorem output_box_from_kept_word (t : Int) (cl : String → Except String (List Entity))
    (ws : List OcrWord) (b : Box) (h : b ∈ classify_pii cl (detect_text_and_boxes t ws)) :
    ∃ w, w ∈ ws ∧ keptWord t w = true ∧ b = wordBox w := by
  rw [classify_pii_eq_concatMap] at h
  rcases mem_concatMapB.mp h with ⟨g, hg, hb⟩
  have hbx : b ∈ concatMapB LineGroup.boxes (detect_text_and_boxes t ws) :=
    mem_concatMapB.mpr ⟨g, hg, contrib_sub_boxes cl g b hb⟩
  rw [boxes_detect_eq] at hbx
  rcases mem_buildGroups_boxes t ws [] b hbx with h0 | h1
  · simp [gBoxes, concatMapB] at h0
  · exact h1

/-! ## Claim theorems: redaction engine -/

/-- Claim C2 (code bug): a redaction requested with method blur still
fills each PII rectangle with solid black.  The engine has no blur path:
RedactionService.process_redaction takes no method argument and
redact_image always fills black, so pixel (12, 12) inside the box of an
all-white image comes out (0, 0, 0), where a Gaussian blur of an all-white
region would leave it (255, 255, 255). -/
theorem blur_request_black_fill :
    (redact_image whiteImg [⟨10, 10, 5, 5⟩]).pix 12 12 = blackPix
  ∧ whiteImg.pix 12 12 = (255, 255, 255) := by
  constructor
  · decide
  · rfl

/-- Claim C3 counterexample: the four-point polygon from the claim is not
normalized to axis-aligned bounds — the drawing loop fails on it — while
the axis-aligned box (10, 10, 40, 30) draws its rectangle, so the two do
not produce an identical redacted rectangle; and a wrong-arity box entry
aborts the loop instead of being skipped. -/
theorem polygon_box_errors_cex :
    isErrE (redact_image_py whiteImg [PyBox.poly [(10, 10), (50, 10), (50, 40), (10, 40)]]) = true
  ∧ redact_image_py whiteImg [PyBox.quad 10 10 40 30]
      = Except.ok (fillRect whiteImg ⟨10, 10, 40, 30⟩)
  ∧ isErrE (redact_image_py whiteImg [PyBox.poly [(1, 2)], PyBox.quad 0 0 1 1]) = true :=
  ⟨rfl, rfl, rfl⟩

/-- Claim C3 (amended): the drawing step accepts only axis-aligned
(x, y, w, h) boxes and draws exactly those rectangles; a box given as a
list of points — the four-point polygon form or any wrong-arity entry —
is not normalized or skipped but makes the drawing loop raise, aborting
the redaction. -/
theorem axis_aligned_only_drawing (img : Img) (qs : List Box) (pts : List (Int × Int))
    (rest : List PyBox) :
    redact_image_py img (qs.map (fun q => PyBox.quad q.x q.y q.w q.h))
      = Except.ok (redact_image img qs)
  ∧ isErrE (redact_image_py img (PyBox.poly pts :: rest)) = true := by
  constructor
  · induction qs generalizing img with
    | nil => rfl
    | cons q qs ih => exact ih (fillRect img q)
  · by_cases h : pts.length = 4 <;> simp [redact_image_py, drawPyBox, h, isErrE]

/-- Claim C4: a word whose coerced confidence equals the threshold is
kept, one at threshold minus one is discarded, one whose stripped text is
empty is discarded, and every box in the redaction output is the exact
box of some kept word — a discarded word never contributes one. -/
theorem confidence_boundary_filtering (t : Int) :
    (∀ w : OcrWord, coerceConf w.conf = t → pyStrip w.text ≠ "" → keptWord t w = true)
  ∧ (∀ w : OcrWord, coerceConf w.conf = t - 1 → keptWord t w = false)
  ∧ (∀ w : OcrWord, pyStrip w.text = "" → keptWord t w = false)
  ∧ (∀ (cl : String → Except String (List Entity)) (ws : List OcrWord) (b : Box),
       b ∈ classify_pii cl (detect_text_and_boxes t ws) →
       ∃ w, w ∈ ws ∧ keptWord t w = true ∧ b = wordBox w) := by
  refine ⟨?_, ?_, ?_, ?_⟩
  · intro w hc he
    simp [keptWord, he, hc]
  · intro w hc
    have hlt : ¬ (t ≤ t - 1) := by omega
    simp [keptWord, hc, hlt]
  · intro w he
    simp [keptWord, he]
  · intro cl ws b hb
    exact output_box_from_kept_word t cl ws b hb

/-- Witness for C4 at threshold 60 with concrete words: confidence 60 is
kept, 59 is dropped, whitespace-only text is dropped, and the one box in
a concrete redaction output is the kept word's box. -/
theorem confidence_boundary_filtering_witness :
    keptWord 60 wKept = true ∧ keptWord 60 wLow = false ∧ keptWord 60 wEmpty = false
  ∧ ∃ w, w ∈ [wKept] ∧ keptWord 60 w = true ∧ wordBox wKept = wordBox w :=
  ⟨(confidence_boundary_filtering 60).1 wKept (by decide) (by decide),
   (confidence_boundary_filtering 60).2.1 wLow (by decide),
   (confidence_boundary_filtering 60).2.2.1 wEmpty (by decide),
   (confidence_boundary_filtering 60).2.2.2 clEmail [wKept] (wordBox wKept) (by decide)⟩

/-- Claim C5: the classify step is the concatenation of per-fragment
contributions; a fragment whose returned entities contain a PII label
contributes all of its boxes, one with no PII label contributes none, and
each fragment's contribution is contained in the returned PII regions. -/
theorem pii_fragment_all_or_none (cl : String → Except String (List Entity))
    (lines : List LineGroup) :
    classify_pii cl lines = concatMapB (contribBoxes cl) lines
  ∧ (∀ g ents, cl g.text = .ok ents →
       ents.any (fun e => piiLabels.contains e.label) = true → contribBoxes cl g = g.boxes)
  ∧ (∀ g ents, cl g.text = .ok ents →
       ents.any (fun e => piiLabels.contains e.label) = false → contribBoxes cl g = [])
  ∧ (∀ g, g ∈ lines → ∀ b, b ∈ contribBoxes cl g → b ∈ classify_pii cl lines) := by
  refine ⟨classify_pii_eq_concatMap cl lines, ?_, ?_, ?_⟩
  · intro g ents hok hany
    unfold contribBoxes
    rw [hok]
    show (if (ents.any fun e => piiLabels.contains e.label) = true then g.boxes else []) = g.boxes
    rw [if_pos hany]
  · intro g ents hok hany
    unfold contribBoxes
    rw [hok]
    show (if (ents.any fun e => piiLabels.contains e.label) = true then g.boxes else []) = []
    rw [if_neg (by rw [hany]; exact Bool.false_ne_true)]
  · intro g hg b hb
    rw [classify_pii_eq_concatMap]
    exact mem_concatMapB.mpr ⟨g, hg, hb⟩

/-- Witness for C5: on a two-fragment input the PII fragment contributes
all its boxes, the non-PII fragment contributes none, and the PII box is
in the output. -/
theorem pii_fragment_all_or_none_witness :
    contribBoxes clWit gMail = gMail.boxes
  ∧ contribBoxes clWit gPlain = []
  ∧ Box.mk 1 1 2 2 ∈ classify_pii clWit [gMail, gPlain] :=
  ⟨(pii_fragment_all_or_none clWit [gMail, gPlain]).2.1 gMail [⟨"EMAIL"⟩] rfl rfl,
   (pii_fragment_all_or_none clWit [gMail, gPlain]).2.2.1 gPlain [⟨"OTHER"⟩] rfl rfl,
   (pii_fragment_all_or_none clWit [gMail, gPlain]).2.2.2 gMail (by decide) ⟨1, 1, 2, 2⟩
     (by decide)⟩

/-- Claim C6: a fragment on which the classifier raises contributes no
boxes, and the overall result is exactly what the remaining fragments
produce — a per-fragment failure never aborts the redaction. -/
theorem classification_failure_isolated (cl : String → Except String (List Entity))
    (g : LineGroup) (e : String) (h : cl g.text = .error e) :
    contribBoxes cl g = []
  ∧ ∀ pre post, classify_pii cl (pre ++ g :: post) = classify_pii cl (pre ++ post) := by
  have hc : contribBoxes cl g = [] := by simp [contribBoxes, h]
  refine ⟨hc, ?_⟩
  intro pre post
  rw [classify_pii_eq_concatMap, classify_pii_eq_concatMap, concatMapB_append, concatMapB_append]
  show concatMapB _ pre ++ concatMapB _ (g :: post) = _
  simp [concatMapB, hc]

/-- Witness for C6: with a classifier raising on the middle fragment, the
failing fragment contributes nothing and the other two fragments are
processed exactly as they would be without it. -/
theorem classification_failure_isolated_witness :
    contribBoxes clBoom gBoom = []
  ∧ classify_pii clBoom ([gMail] ++ gBoom :: [gPlain]) = classify_pii clBoom ([gMail] ++ [gPlain]) :=
  ⟨(classification_failure_isolated clBoom gBoom "model failure" rfl).1,
   (classification_failure_isolated clBoom gBoom "model failure" rfl).2 [gMail] [gPlain]⟩

/-- Claim C10: two services that differ only in box_padding produce the
same process_redaction result on every input, and every redacted
rectangle is the exact reported box of some OCR word, with no padding. -/
theorem box_padding_has_no_effect (s1 s2 : RedactionService)
    (h : s1.confidence_threshold = s2.confidence_threshold)
    (cl : String → Except String (List Entity)) (img : Img) (ocr : List OcrWord) :
    process_redaction s1 cl img ocr = process_redaction s2 cl img ocr
  ∧ ∀ b ∈ (process_redaction s1 cl img ocr).boxes, ∃ w, w ∈ ocr ∧ b = wordBox w := by
  constructor
  · unfold process_redaction
    rw [h]
  · intro b hb
    have hb2 : b ∈ classify_pii cl (detect_text_and_boxes s1.confidence_threshold ocr) := hb
    rcases output_box_from_kept_word _ cl ocr b hb2 with ⟨w, hw, _, hbox⟩
    exact ⟨w, hw, hbox⟩

/-- Witness for C10: services with paddings 5 and 99 and equal threshold
60 give identical results on a concrete image and OCR output. -/
theorem box_padding_has_no_effect_witness :
    process_redaction ⟨60, 5⟩ clNone whiteImg [wKept]
      = process_redaction ⟨60, 99⟩ clNone whiteImg [wKept] :=
  (box_padding_has_no_effect ⟨60, 5⟩ ⟨60, 99⟩ rfl clNone whiteImg [wKept]).1

/-! ## Claim theorems: ingestion state machine -/

theorem buildPages_spec (encode : Raster → Except String Bytes) :
    ∀ (rs : List Raster) (s : Nat) (ps : List PageRow),
      buildPages encode s rs = .ok ps →
      ps.length = rs.length ∧ ps.map (fun p => p.page_number) = natsFrom s rs.length := by
  intro rs
  induction rs with
  | nil =>
    intro s ps h
    cases h
    exact ⟨rfl, rfl⟩
  | cons r rs ih =>
    intro s ps h
    unfold buildPages at h
    cases he : encode r with
    | error e => rw [he] at h; cases h
    | ok b =>
      rw [he] at h
      cases hb : buildPages encode (s + 1) rs with
      | error e => rw [hb] at h; cases h
      | ok ps2 =>
        rw [hb] at h
        cases h
        rcases ih (s + 1) ps2 hb with ⟨hlen, hmap⟩
        refine ⟨by simp [hlen], ?_⟩
        simp [natsFrom, hmap]

/-- Claim C7: an exception in document decomposition, page encoding or
page persistence leaves the upload's committed Page rows exactly as they
were — every partial insert is rolled back — and commits status FAILED. -/
theorem ingestion_failure_rolls_back (encode : Raster → Except String Bytes)
    (decoded : Except String (List Raster)) (persistOk : Bool) (db0 : DbState)
    (h : (∃ e, decoded = .error e)
       ∨ (∃ rs e, decoded = .ok rs ∧ buildPages encode 1 rs = .error e)
       ∨ persistOk = false) :
    (process_pdf_in_background encode decoded persistOk db0).1.status = .FAILED
  ∧ (process_pdf_in_background encode decoded persistOk db0).1.pages = db0.pages := by
  rcases h with ⟨e, rfl⟩ | ⟨rs, e, rfl, hb⟩ | hp
  · exact ⟨rfl, rfl⟩
  · simp [process_pdf_in_background, hb]
  · subst hp
    cases decoded with
    | error e => exact ⟨rfl, rfl⟩
    | ok rs =>
      cases hb : buildPages encode 1 rs with
      | error e => simp [process_pdf_in_background, hb]
      | ok ps => simp [process_pdf_in_background, hb]

/-- Witness for C7: a decomposition failure on a fresh upload ends FAILED
with zero Page rows. -/
theorem ingestion_failure_rolls_back_witness :
    (process_pdf_in_background encId (.error "bad pdf") true dbInit).1.status = .FAILED
  ∧ (process_pdf_in_background encId (.error "bad pdf") true dbInit).1.pages = dbInit.pages :=
  ingestion_failure_rolls_back encId (.error "bad pdf") true dbInit (Or.inl ⟨"bad pdf", rfl⟩)

/-- Claim C8: for a document whose pages all decode and encode, the task
ends with status DONE, appends exactly one Page row per raster numbered
1..N in document order, and every committed snapshot whose status is DONE
already holds all N rows. -/
theorem ingestion_success_pages_done (encode : Raster → Except String Bytes)
    (rs : List Raster) (ps : List PageRow) (db0 : DbState)
    (h : buildPages encode 1 rs = .ok ps) :
    (process_pdf_in_background encode (.ok rs) true db0).1.status = .DONE
  ∧ (process_pdf_in_background encode (.ok rs) true db0).1.pages = db0.pages ++ ps
  ∧ ps.length = rs.length
  ∧ ps.map (fun p => p.page_number) = natsFrom 1 rs.length
  ∧ ∀ s ∈ (process_pdf_in_background encode (.ok rs) true db0).2,
      s.status = .DONE → s.pages = db0.pages ++ ps := by
  rcases buildPages_spec encode rs 1 ps h with ⟨hlen, hmap⟩
  refine ⟨by simp [process_pdf_in_background, h], by simp [process_pdf_in_background, h],
    hlen, hmap, ?_⟩
  intro s hs
  simp only [process_pdf_in_background, h, if_true] at hs
  simp only [List.mem_cons, List.mem_singleton] at hs
  rcases hs with rfl | rfl | (rfl | h0)
  · intro hd; cases hd
  · intro hd; cases hd
  · intro _; rfl
  · cases h0

/-- Witness for C8: a two-page document on a fresh upload ends DONE with
Page rows numbered 1 and 2. -/
theorem ingestion_success_pages_done_witness :
    (process_pdf_in_background encId (.ok [4, 9]) true dbInit).1.status = .DONE
  ∧ (process_pdf_in_background encId (.ok [4, 9]) true dbInit).1.pages
      = dbInit.pages ++ [⟨1, 4⟩, ⟨2, 9⟩] :=
  ⟨(ingestion_success_pages_done encId [4, 9] [⟨1, 4⟩, ⟨2, 9⟩] dbInit rfl).1,
   (ingestion_success_pages_done encId [4, 9] [⟨1, 4⟩, ⟨2, 9⟩] dbInit rfl).2.1⟩

/-! ## Claim theorems: batch redaction runner -/

theorem runPages_err_of_mem (engine : Bytes → Except String RedResult) :
    ∀ (ps : List PgRow) (db : RunDb),
      (∃ p, p ∈ ps ∧ isErrE (engine p.img_bytes) = true) →
      ∃ e, runPages engine db ps = .error e := by
  intro ps
  induction ps with
  | nil =>
    intro db h
    rcases h with ⟨p, hp, _⟩
    cases hp
  | cons q qs ih =>
    intro db h
    rcases h with ⟨p, hp, he⟩
    cases hq : engine q.img_bytes with
    | error e => exact ⟨e, by simp [runPages, hq]⟩
    | ok r =>
      rcases List.mem_cons.mp hp with rfl | hmem
      · rw [hq] at he; simp [isErrE] at he
      · rcases ih (mergeNewRp db q.id r.redacted_image) ⟨p, hmem, he⟩ with ⟨e, he2⟩
        exact ⟨e, by simp [runPages, hq, he2]⟩

theorem runPages_ok_spec (engine : Bytes → Except String RedResult) :
    ∀ (ps : List PgRow) (db : RunDb),
      (∀ p ∈ ps, isErrE (engine p.img_bytes) = false) →
      ∃ dbf res tot, runPages engine db ps = .ok (dbf, res, tot)
        ∧ dbf.pages = db.pages ∧ dbf.uploads = db.uploads
        ∧ ∃ extra, dbf.redacted = db.redacted ++ extra ∧ extra.length = ps.length := by
  intro ps
  induction ps with
  | nil =>
    intro db _
    exact ⟨db, [], 0, rfl, rfl, rfl, [], by simp, rfl⟩
  | cons p ps ih =>
    intro db hall
    have hp : isErrE (engine p.img_bytes) = false := hall p (List.mem_cons_self p ps)
    cases he : engine p.img_bytes with
    | error e => rw [he] at hp; simp [isErrE] at hp
    | ok r =>
      rcases ih (mergeNewRp db p.id r.redacted_image)
          (fun q hq => hall q (List.mem_cons_of_mem p hq)) with
        ⟨dbf, res, tot, hrun, hpg, hup, extra, hred, hlen⟩
      refine ⟨dbf, ⟨p.id, p.page_number, r.boxes.length⟩ :: res, r.boxes.length + tot,
        by simp [runPages, he, hrun], by simpa [mergeNewRp] using hpg,
        by simpa [mergeNewRp] using hup,
        ⟨db.nextRpId, p.id, r.redacted_image⟩ :: extra, ?_, by simp [hlen]⟩
      rw [hred]
      simp [mergeNewRp]

/-- Claim C9: if the redaction engine raises on any page of the upload,
the request returns the error with the durable state unchanged — no
RedactedPage write is committed; when every page succeeds, the single
end-of-batch commit appends exactly one redacted row per page, touching
nothing else. -/
theorem batch_single_commit_abort (engine : Bytes → Except String RedResult)
    (db : RunDb) (uid : Nat) :
    ((∃ p, p ∈ pagesOf db uid ∧ isErrE (engine p.img_bytes) = true) →
      (redact_upload_tx engine db uid).1 = db
      ∧ isErrE (redact_upload_tx engine db uid).2 = true)
  ∧ ((∀ p ∈ pagesOf db uid, isErrE (engine p.img_bytes) = false) →
     db.uploads.contains uid = true → pagesOf db uid ≠ [] →
      ∃ extra, (redact_upload_tx engine db uid).1.redacted = db.redacted ++ extra
        ∧ extra.length = (pagesOf db uid).length
        ∧ (redact_upload_tx engine db uid).1.pages = db.pages
        ∧ (redact_upload_tx engine db uid).1.uploads = db.uploads
        ∧ isErrE (redact_upload_tx engine db uid).2 = false) := by
  constructor
  · rintro ⟨p, hp, he⟩
    rcases runPages_err_of_mem engine (pagesOf db uid) db ⟨p, hp, he⟩ with ⟨e, hre⟩
    unfold redact_upload_tx
    by_cases hu : db.uploads.contains uid
    · rw [if_pos hu]
      have hE : (pagesOf db uid).isEmpty = false := by
        cases hL : pagesOf db uid with
        | nil => rw [hL] at hp; cases hp
        | cons a l => rfl
      rw [if_neg (by rw [hE]; exact Bool.false_ne_true)]
      rw [hre]
      exact ⟨rfl, rfl⟩
    · rw [if_neg hu]
      exact ⟨rfl, rfl⟩
  · intro hall hu hne
    rcases runPages_ok_spec engine (pagesOf db uid) db hall with
      ⟨dbf, res, tot, hrun, hpg, hup, extra, hred, hlen⟩
    unfold redact_upload_tx
    rw [if_pos hu]
    have hE : (pagesOf db uid).isEmpty = false := by
      cases hL : pagesOf db uid with
      | nil => exact absurd hL hne
      | cons a l => rfl
    rw [if_neg (by rw [hE]; exact Bool.false_ne_true)]
    rw [hrun]
    exact ⟨extra, hred, hlen, hpg, hup, rfl⟩

/-- Witness for C9: on a one-page upload a failing engine leaves the
database unchanged and errors, while a succeeding engine commits exactly
one redacted row. -/
theorem batch_single_commit_abort_witness :
    ((redact_upload_tx engineFail dbW 3).1 = dbW
      ∧ isErrE (redact_upload_tx engineFail dbW 3).2 = true)
  ∧ (∃ extra, (redact_upload_tx engineOkW dbW 3).1.redacted = dbW.redacted ++ extra
      ∧ extra.length = (pagesOf dbW 3).length
      ∧ (redact_upload_tx engineOkW dbW 3).1.pages = dbW.pages
      ∧ (redact_upload_tx engineOkW dbW 3).1.uploads = dbW.uploads
      ∧ isErrE (redact_upload_tx engineOkW dbW 3).2 = false) :=
  ⟨(batch_single_commit_abort engineFail dbW 3).1 ⟨⟨1, 3, 1, 50⟩, by decide, rfl⟩,
   (batch_single_commit_abort engineOkW dbW 3).2 (by decide) (by decide) (by decide)⟩

/-- Claim C1 (code bug): running redact_upload twice on an upload with
one page leaves two RedactedPage rows for that page, not one — db.merge
keys on the unset primary key id, so the second run inserts instead of
replacing — even though the second run's summary equals the first's for a
deterministic engine. -/
theorem second_run_duplicates_redacted_rows :
    (((redact_upload_tx engineC (redact_upload_tx engineC dbC 7).1 7).1.redacted.filter
        (fun r => r.page_id == 1)).length = 2)
  ∧ (redact_upload_tx engineC (redact_upload_tx engineC dbC 7).1 7).2
      = (redact_upload_tx engineC dbC 7).2 := by
  exact ⟨rfl, rfl⟩
